import Mathlib

/-!
Verification of the media-collector acquisition pipeline.

Shallow embedding of the Go sources under `bilibili/`:
the history ledger (`History`, `HistoryEntry`), the transfer engine
(`downloadSingleFile`, `getContentLength`), the retry/fallback controller
(`DownloadFile`), the rate-limited gateway (`GetClient`) and the
acquisition orchestrator (`Downloader.Download`).

Effects are made explicit: each embedded operation returns its result
together with a trace of the externally visible events it performs, and
oracles (outcome functions, environment records) stand for the outcomes of
remote calls, file-system probes and the external merge process.
-/

/-- `HistoryEntry` (ffmpeg.go): one row of the history ledger, keyed by the
content identifier `bvid`. -/
structure HistoryEntry where
  bvid : String
  author : String
  title : String
  keyword : String
  tags : String
  fileName : String
  deriving DecidableEq, Repr

/-- `History.Save` (ffmpeg.go):
`h.db.Clauses(clause.OnConflict{UpdateAll: true}).Create(entry)`.
`HistoryEntry` declares no primary key and no unique index (its fields
carry only `json:` tags), so `AutoMigrate` creates the `history_entries`
table without any uniqueness constraint.  The generated
`INSERT ... ON CONFLICT DO UPDATE SET ...` has no conflict target and can
fire only on a uniqueness violation, of which the table has none: the
upsert clause is dead and every `Save` inserts a fresh row, even when a
row with the same `bvid` is already present. -/
def History.Save (table : List HistoryEntry) (entry : HistoryEntry) : List HistoryEntry :=
  table ++ [entry]

/-- `History.IsDownloaded` (ffmpeg.go): `First(&entry, "bvid = ?", bvid)`;
a matching row yields `true`, `gorm.ErrRecordNotFound` yields `false`. -/
def History.IsDownloaded (table : List HistoryEntry) (bvid : String) : Bool :=
  table.any (fun e => e.bvid == bvid)

/-- At most one ledger row per content identifier: the list of `bvid` keys
has no duplicate.  This is the invariant the spec claims for the
ledger. -/
def atMostOnePerBvid (table : List HistoryEntry) : Prop :=
  (table.map (fun e => e.bvid)).Nodup

/-- **C1 (code bug).** The claim (with the spec) says `record` is an
upsert keyed by the content identifier, so the ledger keeps at most one
record per identifier and a re-acquisition overwrites rather than
duplicates.  The code violates this: with `"BV1"` already recorded,
saving a second entry for `"BV1"` appends a second row — the table ends
with two records for the same identifier, the filtered row count is 2,
and the at-most-one invariant fails.  The spec is clearly the intent
(the ledger exists to deduplicate); the missing primary-key/unique
constraint on `Bvid` is the slip. -/
theorem history_save_duplicates_bug :
    History.IsDownloaded [⟨"BV1", "a", "t", "k", "", "f"⟩] "BV1" = true ∧
    History.Save [⟨"BV1", "a", "t", "k", "", "f"⟩] ⟨"BV1", "b", "t2", "k2", "x", "g"⟩ =
      [⟨"BV1", "a", "t", "k", "", "f"⟩, ⟨"BV1", "b", "t2", "k2", "x", "g"⟩] ∧
    ((History.Save [⟨"BV1", "a", "t", "k", "", "f"⟩]
        ⟨"BV1", "b", "t2", "k2", "x", "g"⟩).filter
      (fun x => x.bvid == "BV1")).length = 2 ∧
    ¬ atMostOnePerBvid (History.Save [⟨"BV1", "a", "t", "k", "", "f"⟩]
        ⟨"BV1", "b", "t2", "k2", "x", "g"⟩) :=
  ⟨by decide, rfl, by decide, by unfold atMostOnePerBvid; decide⟩

/-- Per-attempt result of the transfer engine, as observed by the
retry/fallback controller (`DownloadFile`, bilibili.go): success, an error
matching `ErrFileTooLarge` (`errors.Is`), or any other failure. -/
inductive Outcome
  | ok
  | tooLarge
  | fail
  deriving DecidableEq, Repr

/-- Errors returned by `DownloadFile` (bilibili.go): `"urls is empty"`,
the propagated `ErrFileTooLarge`, and the terminal
`"download %s failed"`. -/
inductive DlError
  | emptyUrls
  | fileTooLarge
  | downloadFailed
  deriving DecidableEq, Repr

/-- Externally visible events of one `DownloadFile` call: a transfer
attempt of a URL (`downloadSingleFile(filePath, url)`) and the fixed pause
`time.Sleep(tryInterval)` with `tryInterval = time.Second`. -/
inductive DlEvent
  | attempt (url : String)
  | sleepSecond
  deriving DecidableEq, Repr

/-- The `for _, url := range urls` loop of `DownloadFile` (bilibili.go),
taken when `len(urls) > 1`.  The transfer engine is abstracted by
`engine : Nat → Outcome`, giving the outcome of the k-th attempt made by
this call.  Returns the early-return result (`none` when the loop
exhausts all URLs and falls through), the event trace, and the updated
attempt counter. -/
def tryEachUrl (engine : Nat → Outcome) :
    List String → Nat → Option (Except DlError Unit) × List DlEvent × Nat
  | [], k => (none, [], k)
  | u :: rest, k =>
    match engine k with
    | .ok => (some (.ok ()), [.attempt u], k + 1)
    | .tooLarge => (some (.error .fileTooLarge), [.attempt u], k + 1)
    | .fail =>
      let r := tryEachUrl engine rest (k + 1)
      (r.1, .attempt u :: r.2.1, r.2.2)

/-- `maxTryCnt` (bilibili.go). -/
def maxTryCnt : Nat := 5

/-- The `for tryCnt < maxTryCnt` loop of `DownloadFile` (bilibili.go),
taken when `len(urls) == 1`: retry the single URL; on `ErrFileTooLarge`
return it at once; on any other failure `time.Sleep(tryInterval)` and try
again; `none` when the retry budget is exhausted. -/
def retrySingleUrl (engine : Nat → Outcome) (u : String) :
    Nat → Nat → Option (Except DlError Unit) × List DlEvent × Nat
  | 0, k => (none, [], k)
  | fuel + 1, k =>
    match engine k with
    | .ok => (some (.ok ()), [.attempt u], k + 1)
    | .tooLarge => (some (.error .fileTooLarge), [.attempt u], k + 1)
    | .fail =>
      let r := retrySingleUrl engine u fuel (k + 1)
      (r.1, .attempt u :: .sleepSecond :: r.2.1, r.2.2)

/-- `Downloader.DownloadFile` (bilibili.go): empty URL list fails at once;
with more than one URL each URL is tried once in order; with exactly one
URL it is retried up to `maxTryCnt` times; falling out of both loops
reaches the final `return errors.Newf("download %s failed", fileName)`. -/
def DownloadFile (engine : Nat → Outcome) (urls : List String) :
    Except DlError Unit × List DlEvent :=
  if urls.length = 0 then (.error .emptyUrls, [])
  else
    let s1 := if urls.length > 1 then tryEachUrl engine urls 0 else (none, [], 0)
    match s1 with
    | (some r, evs, _) => (r, evs)
    | (none, evs1, k) =>
      let s2 := if urls.length = 1 then retrySingleUrl engine (urls.headD "") maxTryCnt k
                else (none, [], k)
      match s2 with
      | (some r, evs2, _) => (r, evs1 ++ evs2)
      | (none, evs2, _) => (.error .downloadFailed, evs1 ++ evs2)

/-- The transfer attempts recorded in an event trace, in order. -/
def attemptsOf (evs : List DlEvent) : List String :=
  evs.filterMap (fun e => match e with | .attempt u => some u | .sleepSecond => none)

lemma attemptsOf_append (a b : List DlEvent) :
    attemptsOf (a ++ b) = attemptsOf a ++ attemptsOf b := by
  unfold attemptsOf
  exact List.filterMap_append a b _

lemma tryEachUrl_all_fail (engine : Nat → Outcome) (urls : List String) :
    ∀ k, (∀ i, i < urls.length → engine (k + i) = .fail) →
      tryEachUrl engine urls k = (none, urls.map DlEvent.attempt, k + urls.length) := by
  induction urls with
  | nil => intro k _; simp [tryEachUrl]
  | cons u rest ih =>
    intro k hall
    have h0 : engine k = .fail := by simpa using hall 0 (by simp)
    have hrest : ∀ i, i < rest.length → engine (k + 1 + i) = .fail := by
      intro i hi
      have := hall (i + 1) (by simpa using Nat.succ_lt_succ hi)
      simpa [Nat.add_assoc, Nat.add_comm 1 i] using this
    simp only [tryEachUrl, h0, ih (k + 1) hrest, List.map_cons]
    have hlen : k + 1 + rest.length = k + (u :: rest).length := by
      simp only [List.length_cons]
      omega
    rw [hlen]

lemma tryEachUrl_stops (engine : Nat → Outcome) (urls : List String) :
    ∀ k j, j < urls.length → (∀ i, i < j → engine (k + i) = .fail) →
      engine (k + j) ≠ .fail →
      tryEachUrl engine urls k =
        (some (if engine (k + j) = .ok then Except.ok () else Except.error DlError.fileTooLarge),
         (urls.take (j + 1)).map DlEvent.attempt, k + j + 1) := by
  induction urls with
  | nil => intro k j hj; simp at hj
  | cons u rest ih =>
    intro k j hj hfail hstop
    cases j with
    | zero =>
      simp only [Nat.add_zero] at hstop
      cases hek : engine k with
      | ok => simp [tryEachUrl, hek]
      | tooLarge => simp [tryEachUrl, hek]
      | fail => exact absurd hek hstop
    | succ j' =>
      have h0 : engine k = .fail := by simpa using hfail 0 (Nat.succ_pos j')
      have hfail' : ∀ i, i < j' → engine (k + 1 + i) = .fail := by
        intro i hi
        have := hfail (i + 1) (Nat.succ_lt_succ hi)
        simpa [Nat.add_assoc, Nat.add_comm 1 i] using this
      have hstop' : engine (k + 1 + j') ≠ .fail := by
        have : k + 1 + j' = k + (j' + 1) := by omega
        rw [this]
        exact hstop
      have hj' : j' < rest.length := by simpa using Nat.lt_of_succ_lt_succ hj
      have := ih (k + 1) j' hj' hfail' hstop'
      simp only [tryEachUrl, h0, this, List.take_succ_cons, List.map_cons]
      have h1 : k + 1 + j' = k + (j' + 1) := by omega
      rw [h1]

lemma tryEachUrl_trace (engine : Nat → Outcome) (urls : List String) :
    ∀ k, ∃ m, m ≤ urls.length ∧
      (tryEachUrl engine urls k).2.1 = (urls.take m).map DlEvent.attempt := by
  induction urls with
  | nil => exact fun _ => ⟨0, Nat.le_refl 0, by simp [tryEachUrl]⟩
  | cons u rest ih =>
    intro k
    cases hek : engine k with
    | ok => exact ⟨1, by simp, by simp [tryEachUrl, hek]⟩
    | tooLarge => exact ⟨1, by simp, by simp [tryEachUrl, hek]⟩
    | fail =>
      obtain ⟨m, hm, he⟩ := ih (k + 1)
      exact ⟨m + 1, by simpa using Nat.succ_le_succ hm,
        by simp [tryEachUrl, hek, he]⟩

lemma retrySingleUrl_all_fail (engine : Nat → Outcome) (u : String) :
    ∀ fuel k, (∀ i, i < fuel → engine (k + i) = .fail) →
      retrySingleUrl engine u fuel k =
        (none, (List.replicate fuel [DlEvent.attempt u, DlEvent.sleepSecond]).flatten,
         k + fuel) := by
  intro fuel
  induction fuel with
  | zero => intro k _; simp [retrySingleUrl]
  | succ f ih =>
    intro k hall
    have h0 : engine k = .fail := by simpa using hall 0 (Nat.succ_pos f)
    have hrest : ∀ i, i < f → engine (k + 1 + i) = .fail := by
      intro i hi
      have := hall (i + 1) (Nat.succ_lt_succ hi)
      simpa [Nat.add_assoc, Nat.add_comm 1 i] using this
    simp only [retrySingleUrl, h0, ih (k + 1) hrest, List.replicate_succ, List.flatten_cons]
    have h1 : k + 1 + f = k + (f + 1) := by omega
    rw [h1]
    simp

lemma retrySingleUrl_stops (engine : Nat → Outcome) (u : String) :
    ∀ fuel k j, j < fuel → (∀ i, i < j → engine (k + i) = .fail) →
      engine (k + j) ≠ .fail →
      retrySingleUrl engine u fuel k =
        (some (if engine (k + j) = .ok then Except.ok () else Except.error DlError.fileTooLarge),
         (List.replicate j [DlEvent.attempt u, DlEvent.sleepSecond]).flatten ++ [DlEvent.attempt u],
         k + j + 1) := by
  intro fuel
  induction fuel with
  | zero => intro k j hj; simp at hj
  | succ f ih =>
    intro k j hj hfail hstop
    cases j with
    | zero =>
      simp only [Nat.add_zero] at hstop
      cases hek : engine k with
      | ok => simp [retrySingleUrl, hek]
      | tooLarge => simp [retrySingleUrl, hek]
      | fail => exact absurd hek hstop
    | succ j' =>
      have h0 : engine k = .fail := by simpa using hfail 0 (Nat.succ_pos j')
      have hfail' : ∀ i, i < j' → engine (k + 1 + i) = .fail := by
        intro i hi
        have := hfail (i + 1) (Nat.succ_lt_succ hi)
        simpa [Nat.add_assoc, Nat.add_comm 1 i] using this
      have hstop' : engine (k + 1 + j') ≠ .fail := by
        have h1 : k + 1 + j' = k + (j' + 1) := by omega
        rw [h1]; exact hstop
      have hj' : j' < f := Nat.lt_of_succ_lt_succ hj
      simp only [retrySingleUrl, h0, ih (k + 1) j' hj' hfail' hstop',
        List.replicate_succ, List.flatten_cons]
      have h1 : k + 1 + j' = k + (j' + 1) := by omega
      rw [h1]
      simp

lemma attemptsOf_map_attempt (l : List String) :
    attemptsOf (l.map DlEvent.attempt) = l := by
  induction l with
  | nil => rfl
  | cons x xs ih =>
    simp only [List.map_cons, attemptsOf, List.filterMap_cons] at *
    rw [ih]

lemma attemptsOf_replicate_join (j : Nat) (u : String) :
    attemptsOf ((List.replicate j [DlEvent.attempt u, DlEvent.sleepSecond]).flatten)
      = List.replicate j u := by
  induction j with
  | zero => rfl
  | succ n ih =>
    simp only [List.replicate_succ, List.flatten_cons, attemptsOf_append]
    rw [ih]
    rfl

lemma downloadFile_multi_eq (engine : Nat → Outcome) (urls : List String)
    (h : 1 < urls.length) :
    DownloadFile engine urls =
      ((match (tryEachUrl engine urls 0).1 with
        | some r => r
        | none => Except.error DlError.downloadFailed),
       (tryEachUrl engine urls 0).2.1) := by
  unfold DownloadFile
  have h0 : ¬urls.length = 0 := by omega
  have h1 : ¬urls.length = 1 := by omega
  rw [if_neg h0, if_pos h]
  rcases hs : tryEachUrl engine urls 0 with ⟨o, evs, k⟩
  cases o with
  | some r => rfl
  | none =>
    simp only [if_neg h1]
    simp

lemma downloadFile_single_eq (engine : Nat → Outcome) (u : String) :
    DownloadFile engine [u] =
      ((match (retrySingleUrl engine u maxTryCnt 0).1 with
        | some r => r
        | none => Except.error DlError.downloadFailed),
       (retrySingleUrl engine u maxTryCnt 0).2.1) := by
  unfold DownloadFile
  rcases hs : retrySingleUrl engine u maxTryCnt 0 with ⟨o, evs, k⟩
  cases o with
  | some r => simp [hs]
  | none => simp [hs]

/-- **C2.** `DownloadFile` with more than one URL: attempts form a prefix of
the URL list (each URL at most once, in list order); if every attempt
fails the whole list is attempted and `DownloadFailed` is returned; if the
first non-failing attempt succeeds the call returns success right there;
if it reports `FileTooLarge` that error is returned immediately and no
later URL is attempted. -/
theorem downloadFile_multi_url_policy (engine : Nat → Outcome) (urls : List String)
    (hlen : 1 < urls.length) :
    (∃ m, m ≤ urls.length ∧
      attemptsOf (DownloadFile engine urls).2 = urls.take m) ∧
    ((∀ i, i < urls.length → engine i = .fail) →
      (DownloadFile engine urls).1 = .error .downloadFailed ∧
      attemptsOf (DownloadFile engine urls).2 = urls) ∧
    (∀ j, j < urls.length → (∀ i, i < j → engine i = .fail) → engine j = .ok →
      (DownloadFile engine urls).1 = .ok () ∧
      attemptsOf (DownloadFile engine urls).2 = urls.take (j + 1)) ∧
    (∀ j, j < urls.length → (∀ i, i < j → engine i = .fail) → engine j = .tooLarge →
      (DownloadFile engine urls).1 = .error .fileTooLarge ∧
      attemptsOf (DownloadFile engine urls).2 = urls.take (j + 1)) := by
  rw [downloadFile_multi_eq engine urls hlen]
  refine ⟨?_, ?_, ?_, ?_⟩
  · obtain ⟨m, hm, he⟩ := tryEachUrl_trace engine urls 0
    exact ⟨m, hm, by rw [he, attemptsOf_map_attempt]⟩
  · intro hall
    have hall' : ∀ i, i < urls.length → engine (0 + i) = .fail := by
      intro i hi; rw [Nat.zero_add]; exact hall i hi
    rw [tryEachUrl_all_fail engine urls 0 hall']
    exact ⟨rfl, by simp [attemptsOf_map_attempt]⟩
  · intro j hj hfail hok
    have hfail' : ∀ i, i < j → engine (0 + i) = .fail := by
      intro i hi; rw [Nat.zero_add]; exact hfail i hi
    have hstop' : engine (0 + j) ≠ .fail := by rw [Nat.zero_add, hok]; simp
    rw [tryEachUrl_stops engine urls 0 j hj hfail' hstop']
    constructor
    · simp [hok]
    · exact attemptsOf_map_attempt _
  · intro j hj hfail htl
    have hfail' : ∀ i, i < j → engine (0 + i) = .fail := by
      intro i hi; rw [Nat.zero_add]; exact hfail i hi
    have hstop' : engine (0 + j) ≠ .fail := by rw [Nat.zero_add, htl]; simp
    rw [tryEachUrl_stops engine urls 0 j hj hfail' hstop']
    constructor
    · simp [htl]
    · exact attemptsOf_map_attempt _

/-- Concrete transfer-engine oracle: the first attempt fails, all later
attempts succeed. -/
def cEngineA : Nat → Outcome := fun k => if k = 0 then .fail else .ok

/-- Witness for `downloadFile_multi_url_policy`: three mirrors, first
attempt fails, second succeeds; the third URL is never attempted. -/
theorem downloadFile_multi_url_policy_witness :
    (DownloadFile cEngineA ["a", "b", "c"]).1 = .ok () ∧
    attemptsOf (DownloadFile cEngineA ["a", "b", "c"]).2 = ["a", "b"] :=
  (downloadFile_multi_url_policy cEngineA ["a", "b", "c"] (by decide)).2.2.1 1
    (by decide) (by decide) (by decide)

/-- **C3.** `DownloadFile` with exactly one URL: on sustained failure
exactly `maxTryCnt = 5` attempts are made, each followed by the fixed
one-second pause, after which `DownloadFailed` is returned; a success on
attempt `j` (zero-based) ends the call with success after `j + 1`
attempts; a `FileTooLarge` on attempt `j` is returned immediately, with
the remaining retries unconsumed. -/
theorem downloadFile_single_url_retry (engine : Nat → Outcome) (u : String) :
    ((∀ i, i < 5 → engine i = .fail) →
      (DownloadFile engine [u]).1 = .error .downloadFailed ∧
      (DownloadFile engine [u]).2 =
        [DlEvent.attempt u, DlEvent.sleepSecond, DlEvent.attempt u, DlEvent.sleepSecond,
         DlEvent.attempt u, DlEvent.sleepSecond, DlEvent.attempt u, DlEvent.sleepSecond,
         DlEvent.attempt u, DlEvent.sleepSecond]) ∧
    (∀ j, j < 5 → (∀ i, i < j → engine i = .fail) → engine j = .ok →
      (DownloadFile engine [u]).1 = .ok () ∧
      attemptsOf (DownloadFile engine [u]).2 = List.replicate (j + 1) u) ∧
    (∀ j, j < 5 → (∀ i, i < j → engine i = .fail) → engine j = .tooLarge →
      (DownloadFile engine [u]).1 = .error .fileTooLarge ∧
      attemptsOf (DownloadFile engine [u]).2 = List.replicate (j + 1) u) := by
  rw [downloadFile_single_eq engine u]
  refine ⟨?_, ?_, ?_⟩
  · intro hall
    have hall' : ∀ i, i < maxTryCnt → engine (0 + i) = .fail := by
      intro i hi
      rw [Nat.zero_add]
      exact hall i (by simpa [maxTryCnt] using hi)
    rw [retrySingleUrl_all_fail engine u maxTryCnt 0 hall']
    exact ⟨rfl, rfl⟩
  · intro j hj hfail hok
    have hfail' : ∀ i, i < j → engine (0 + i) = .fail := by
      intro i hi; rw [Nat.zero_add]; exact hfail i hi
    have hstop' : engine (0 + j) ≠ .fail := by rw [Nat.zero_add, hok]; simp
    rw [retrySingleUrl_stops engine u maxTryCnt 0 j (by simpa [maxTryCnt] using hj)
      hfail' hstop']
    constructor
    · simp [hok]
    · rw [attemptsOf_append, attemptsOf_replicate_join, List.replicate_succ']
      rfl
  · intro j hj hfail htl
    have hfail' : ∀ i, i < j → engine (0 + i) = .fail := by
      intro i hi; rw [Nat.zero_add]; exact hfail i hi
    have hstop' : engine (0 + j) ≠ .fail := by rw [Nat.zero_add, htl]; simp
    rw [retrySingleUrl_stops engine u maxTryCnt 0 j (by simpa [maxTryCnt] using hj)
      hfail' hstop']
    constructor
    · simp [htl]
    · rw [attemptsOf_append, attemptsOf_replicate_join, List.replicate_succ']
      rfl

/-- Concrete transfer-engine oracle: every attempt fails. -/
def cEngineB : Nat → Outcome := fun _ => .fail

/-- Witness for `downloadFile_single_url_retry`: a single URL under
sustained failure gives exactly five attempts, each followed by the
one-second pause, then the terminal failure. -/
theorem downloadFile_single_url_retry_witness :
    (DownloadFile cEngineB ["x"]).1 = .error .downloadFailed ∧
    (DownloadFile cEngineB ["x"]).2 =
      [DlEvent.attempt "x", DlEvent.sleepSecond, DlEvent.attempt "x", DlEvent.sleepSecond,
       DlEvent.attempt "x", DlEvent.sleepSecond, DlEvent.attempt "x", DlEvent.sleepSecond,
       DlEvent.attempt "x", DlEvent.sleepSecond] :=
  (downloadFile_single_url_retry cEngineB "x").1 (fun _ _ => rfl)

/-- The authenticated platform client handle held by the `Downloader`
(an opaque `*bilibili.Client`). -/
structure Client where
  cookies : String
  deriving DecidableEq, Repr

/-- A Go context as seen by a blocking wait: `background` never fires a
cancellation signal, `canceled` has fired. -/
inductive GoContext
  | background
  | canceled
  deriving DecidableEq, Repr

/-- The error a blocking permit wait reports when the supplied context's
cancellation signal fires before the permit is granted. -/
inductive WaitError
  | contextCanceled
  deriving DecidableEq, Repr

/-- The context argument the source passes to the permit wait
(`downloader.go`, `Downloader.GetClient`):
`d.rateLimiter.Wait(context.Background())` — a fresh background context,
not a caller-supplied one. -/
def getClientWaitCtx : GoContext := .background

/-- `Downloader.GetClient` (downloader.go):
`_ = d.rateLimiter.Wait(context.Background())`, then the 1–3 s jitter
sleep, then `return d.client`.  `waitResult` is the value returned by the
permit wait; the source discards it (`_ =`) and returns the client
unconditionally. -/
def GetClient (waitResult : Except WaitError Unit) (client : Client) :
    Except WaitError Client :=
  let _ := waitResult
  .ok client

/-- **C4 counterexample.** The claim says a cancellation firing before the
permit is granted makes the call fail with a cancellation error.  In the
source the wait receives a fresh `context.Background()` (so no caller
signal is consulted) and its result is discarded: even when the permit
wait ends in a cancellation error, `GetClient` still returns the client
and does not fail. -/
theorem getClient_cancellation_cex :
    getClientWaitCtx = GoContext.background ∧
    GetClient (.error .contextCanceled) ⟨"c"⟩ = .ok ⟨"c"⟩ ∧
    GetClient (.error .contextCanceled) ⟨"c"⟩ ≠ .error .contextCanceled := by
  refine ⟨rfl, rfl, ?_⟩
  intro h
  cases h

/-- **C4 (amended).** `GetClient` passes a fresh background context (which
never fires) to the token-bucket wait and discards the wait's result: for
every wait outcome, including a cancellation error, the call returns the
client and never fails; no caller-supplied cancellation signal is
consulted. -/
theorem getClient_discards_wait_result :
    getClientWaitCtx = GoContext.background ∧
    ∀ (w : Except WaitError Unit) (c : Client), GetClient w c = .ok c :=
  ⟨rfl, fun _ _ => rfl⟩

/-- Decimal-digit run for `strconv.ParseInt(s, 10, 64)`: fails on the
first non-digit character. -/
def parseDecDigits : List Char → Nat → Option Nat
  | [], acc => some acc
  | c :: cs, acc =>
    if c.isDigit then parseDecDigits cs (acc * 10 + (c.toNat - '0'.toNat))
    else none

/-- `strconv.ParseInt(s, 10, 64)`, success cases: an optional sign, a
non-empty run of decimal digits, value within the signed 64-bit range;
everything else (including the empty string) is an error, modelled as
`none`. -/
def goParseInt64 (s : String) : Option Int :=
  let cs := s.toList
  let signed : Bool × List Char :=
    match cs with
    | '+' :: rest => (false, rest)
    | '-' :: rest => (true, rest)
    | _ => (false, cs)
  if signed.2.isEmpty then none
  else
    match parseDecDigits signed.2 0 with
    | none => none
    | some n =>
      let v : Int := if signed.1 then -(n : Int) else (n : Int)
      if v < -(2 ^ 63) ∨ 2 ^ 63 - 1 < v then none else some v

/-- `getContentLength` (bilibili.go): parse the `Content-Length` header
value (`header.Get` returns the empty string when the header is absent);
any parse error maps to the sentinel `-1`. -/
def getContentLength (headerValue : String) : Int :=
  match goParseInt64 headerValue with
  | none => -1
  | some v => v

/-- One read delivered to the 1 MiB buffer loop of `downloadSingleFile`:
a chunk of bytes, end of stream, or a read error (including the per-chunk
timeout enforced through `readWithContext`). -/
inductive ReadResult
  | chunk (bytes : List Nat)
  | eof
  | readErr
  deriving DecidableEq, Repr

/-- Environment of one `downloadSingleFile` attempt: whether `os.OpenFile`
and the GET request succeed, the `Content-Length` header value (empty
string when absent), and the successive body reads. -/
structure TransferEnv where
  openOk : Bool
  getOk : Bool
  header : String
  body : List ReadResult
  deriving DecidableEq, Repr

/-- Errors of one `downloadSingleFile` attempt. -/
inductive SfError
  | openFailed
  | getFailed
  | fileTooLarge
  | readFailed
  deriving DecidableEq, Repr

/-- File-system / network events of one `downloadSingleFile` attempt. -/
inductive FsEvent
  | openTrunc
  | httpGet
  | write (n : Nat)
  deriving DecidableEq, Repr

/-- The body-streaming loop of `downloadSingleFile`: read a chunk, write
it to the destination file (and the progress sink); `io.EOF` ends with
success, any other read error aborts the attempt. -/
def readLoop : List ReadResult → List Nat →
    Except SfError Unit × List FsEvent × List Nat
  | [], file => (.error .readFailed, [], file)
  | .eof :: _, file => (.ok (), [], file)
  | .readErr :: _, file => (.error .readFailed, [], file)
  | .chunk bs :: rest, file =>
    let r := readLoop rest (file ++ bs)
    (r.1, .write bs.length :: r.2.1, r.2.2)

/-- `Downloader.downloadSingleFile` (bilibili.go).  The destination file's
contents are threaded explicitly (`none` = the path does not exist):
`os.OpenFile(filePath, O_WRONLY|O_CREATE|O_TRUNC, 0644)` creates or
truncates it to empty before the GET request is issued and before the
size cap is checked; then, if `d.maxFileSize > 0` and the declared
content length reaches it, the attempt aborts with `ErrFileTooLarge`
before any write; otherwise the body is streamed to the file. -/
def downloadSingleFile (maxFileSize : Int) (env : TransferEnv)
    (prevFile : Option (List Nat)) :
    Except SfError Unit × List FsEvent × Option (List Nat) :=
  if env.openOk = false then (.error .openFailed, [], prevFile)
  else
    if env.getOk = false then (.error .getFailed, [.openTrunc, .httpGet], some [])
    else
      let contentLength := getContentLength env.header
      if 0 < maxFileSize ∧ maxFileSize ≤ contentLength then
        (.error .fileTooLarge, [.openTrunc, .httpGet], some [])
      else
        let r := readLoop env.body []
        (r.1, .openTrunc :: .httpGet :: r.2.1, some r.2.2)

lemma readLoop_no_tooLarge : ∀ (body : List ReadResult) (file : List Nat),
    (readLoop body file).1 ≠ .error .fileTooLarge := by
  intro body
  induction body with
  | nil => intro file h; cases h
  | cons r rest ih =>
    intro file
    cases r with
    | chunk bs => exact ih (file ++ bs)
    | eof => intro h; cases h
    | readErr => intro h; cases h

/-- **C6.** For one transfer attempt with the file open and the GET
succeeding: the declared size is the parsed `Content-Length` (missing or
unparseable mapped to `-1`), and the attempt aborts with `FileTooLarge`
if and only if a maximum file size is configured and the declared size
reaches it; when it does abort, no body byte has been written; with the
sentinel `-1` the cap is never enforced. -/
theorem downloadSingleFile_size_cap (maxFileSize : Int) (env : TransferEnv)
    (prevFile : Option (List Nat))
    (hopen : env.openOk = true) (hget : env.getOk = true) :
    ((downloadSingleFile maxFileSize env prevFile).1 = .error .fileTooLarge ↔
      0 < maxFileSize ∧ maxFileSize ≤ getContentLength env.header) ∧
    (0 < maxFileSize ∧ maxFileSize ≤ getContentLength env.header →
      ∀ n, FsEvent.write n ∉ (downloadSingleFile maxFileSize env prevFile).2.1) ∧
    getContentLength "" = -1 ∧
    (∀ s, goParseInt64 s = none → getContentLength s = -1) ∧
    (getContentLength env.header = -1 →
      (downloadSingleFile maxFileSize env prevFile).1 ≠ .error .fileTooLarge) := by
  have hiff : (downloadSingleFile maxFileSize env prevFile).1 = .error .fileTooLarge ↔
      0 < maxFileSize ∧ maxFileSize ≤ getContentLength env.header := by
    unfold downloadSingleFile
    rw [hopen, hget]
    simp only [Bool.true_eq_false, if_false]
    by_cases hcap : 0 < maxFileSize ∧ maxFileSize ≤ getContentLength env.header
    · rw [if_pos hcap]
      simpa using hcap
    · rw [if_neg hcap]
      simp only [hcap, iff_false]
      exact readLoop_no_tooLarge env.body []
  refine ⟨hiff, ?_, rfl, ?_, ?_⟩
  · intro hcap n
    unfold downloadSingleFile
    rw [hopen, hget]
    simp only [Bool.true_eq_false, if_false]
    rw [if_pos hcap]
    intro hmem
    simp at hmem
  · intro s hs
    unfold getContentLength
    rw [hs]
  · intro hcl hres
    have := hiff.mp hres
    rw [hcl] at this
    omega

/-- Witness for `downloadSingleFile_size_cap`: cap 100, declared size 200,
the attempt aborts with `FileTooLarge` and writes nothing. -/
theorem downloadSingleFile_size_cap_witness :
    ((downloadSingleFile 100 ⟨true, true, "200", [.eof]⟩ none).1 =
        .error .fileTooLarge ↔
      0 < (100 : Int) ∧ (100 : Int) ≤ getContentLength "200") ∧
    (0 < (100 : Int) ∧ (100 : Int) ≤ getContentLength "200" →
      ∀ n, FsEvent.write n ∉ (downloadSingleFile 100 ⟨true, true, "200", [.eof]⟩ none).2.1) ∧
    getContentLength "" = -1 ∧
    (∀ s, goParseInt64 s = none → getContentLength s = -1) ∧
    (getContentLength "200" = -1 →
      (downloadSingleFile 100 ⟨true, true, "200", [.eof]⟩ none).1 ≠
        .error .fileTooLarge) :=
  downloadSingleFile_size_cap 100 ⟨true, true, "200", [.eof]⟩ none rfl rfl

/-- **C10.** `downloadSingleFile` truncate-creates the destination before
issuing the GET request and before the size-cap check: whenever the open
succeeds the trace begins with the truncate-create followed by the GET,
and on a `FileTooLarge` abort (likewise on a failed GET) the destination
file exists with zero length — any previously stored content is destroyed
even though no new byte is written. -/
theorem downloadSingleFile_truncate_first (maxFileSize : Int) (env : TransferEnv)
    (prev : List Nat) (hopen : env.openOk = true) :
    (∃ rest, (downloadSingleFile maxFileSize env (some prev)).2.1 =
      FsEvent.openTrunc :: FsEvent.httpGet :: rest) ∧
    ((downloadSingleFile maxFileSize env (some prev)).1 = .error .fileTooLarge →
      (downloadSingleFile maxFileSize env (some prev)).2.2 = some [] ∧
      ∀ n, FsEvent.write n ∉ (downloadSingleFile maxFileSize env (some prev)).2.1) ∧
    (env.getOk = false →
      (downloadSingleFile maxFileSize env (some prev)).2.2 = some []) := by
  unfold downloadSingleFile
  rw [hopen]
  simp only [Bool.true_eq_false, if_false]
  by_cases hget : env.getOk = false
  · rw [if_pos hget]
    refine ⟨⟨[], rfl⟩, ?_, fun _ => rfl⟩
    intro h
    cases h
  · rw [if_neg hget]
    by_cases hcap : 0 < maxFileSize ∧ maxFileSize ≤ getContentLength env.header
    · rw [if_pos hcap]
      refine ⟨⟨[], rfl⟩, ?_, fun h => absurd h hget⟩
      intro _
      refine ⟨rfl, ?_⟩
      intro n hmem
      simp at hmem
    · rw [if_neg hcap]
      refine ⟨⟨(readLoop env.body []).2.1, rfl⟩, ?_, fun h => absurd h hget⟩
      intro h
      exact absurd h (readLoop_no_tooLarge env.body [])

/-- Witness for `downloadSingleFile_truncate_first`: a previous file body
`[7]` at the destination is truncated away by a `FileTooLarge` abort. -/
theorem downloadSingleFile_truncate_first_witness :
    (∃ rest, (downloadSingleFile 100 ⟨true, true, "200", [.eof]⟩ (some [7])).2.1 =
      FsEvent.openTrunc :: FsEvent.httpGet :: rest) ∧
    ((downloadSingleFile 100 ⟨true, true, "200", [.eof]⟩ (some [7])).1 =
        .error .fileTooLarge →
      (downloadSingleFile 100 ⟨true, true, "200", [.eof]⟩ (some [7])).2.2 = some [] ∧
      ∀ n, FsEvent.write n ∉
        (downloadSingleFile 100 ⟨true, true, "200", [.eof]⟩ (some [7])).2.1) ∧
    ((⟨true, true, "200", [.eof]⟩ : TransferEnv).getOk = false →
      (downloadSingleFile 100 ⟨true, true, "200", [.eof]⟩ (some [7])).2.2 = some []) :=
  downloadSingleFile_truncate_first 100 ⟨true, true, "200", [.eof]⟩ [7] rfl

/-- One encoded track variant (`bilibili.AudioOrVideo`): bandwidth ranking
key, mime/container hint, primary URL and backup URLs. -/
structure AudioOrVideo where
  bandwidth : Int
  mimeType : String
  baseUrl : String
  backupUrl : List String
  deriving DecidableEq, Repr

/-- The `Dash` part of a stream-lookup response: the video and audio
variant lists. -/
structure Dash where
  video : List AudioOrVideo
  audio : List AudioOrVideo
  deriving DecidableEq, Repr

/-- A stream-lookup response (`GetVideoStream`): the `Result` status
string and the `Dash` variant lists. -/
structure VideoStream where
  result : String
  dash : Dash
  deriving DecidableEq, Repr

/-- `DownloadOption` (downloader.go). -/
structure DownloadOption where
  bvid : String
  cid : Nat
  ownerName : String
  title : String
  searchKeyword : String
  tags : List String
  downloadProgress : String
  deriving DecidableEq, Repr

/-- Does `sub` occur as a leading run of `l`? (helper for
`strings.Contains`). -/
def leadRun : List Char → List Char → Bool
  | [], _ => true
  | _ :: _, [] => false
  | a :: as, b :: bs => a == b && leadRun as bs

/-- Does `sub` occur as a contiguous run anywhere in `l`? -/
def hasRun (sub : List Char) : List Char → Bool
  | [] => sub.isEmpty
  | c :: cs => leadRun sub (c :: cs) || hasRun sub cs

/-- `strings.Contains(s, sub)`. -/
def goContains (s sub : String) : Bool :=
  hasRun sub.toList s.toList

/-- `newFileName` (bilibili.go): normalize the container extension by
substring match (`mp4`/`flv` recognized, else passed through), attach the
`_suffix` when present, and format `"{author} - {title}{suffix}.{format}"`.
The external `filenamify.FilenamifyV2` sanitizer is modelled as the
identity (it only rewrites names containing illegal characters). -/
def newFileName (author title suffix format : String) : String :=
  let format2 := if goContains format "mp4" then "mp4"
    else if goContains format "flv" then "flv" else format
  let suffix2 := if suffix ≠ "" then "_" ++ suffix else suffix
  author ++ " - " ++ title ++ suffix2 ++ "." ++ format2

/-- `StreamType` (downloader.go). -/
inductive StreamType
  | video
  | audio
  deriving DecidableEq, Repr

/-- `getFileName` (downloader.go): `nil` variant means the final merged
output (`mp4`); otherwise the per-track temporary name. -/
def getFileName (option : DownloadOption) (videoOrAudio : Option AudioOrVideo)
    (streamType : StreamType) : String :=
  match videoOrAudio with
  | none => newFileName option.ownerName option.title "" "mp4"
  | some v =>
    match streamType with
    | .audio => newFileName option.ownerName option.title "audio" v.mimeType
    | .video => newFileName option.ownerName option.title "video" v.mimeType

/-- Outcomes of the external collaborators consulted by one
`Downloader.Download` run: the metadata lookup (`GetVideoInfo`, giving the
resolved `cid`), the stream lookup (`GetVideoStream`), the
`fileExists(dstFilePath)` probe, the two `DownloadFile` calls, and the
external ffmpeg merge. -/
structure OrchestratorEnv where
  videoInfoCid : Except String Nat
  videoStream : Except String VideoStream
  dstFileExists : Bool
  videoDownload : Except DlError Unit
  audioDownload : Except DlError Unit
  mergeOutcome : Except String Unit
  deriving Repr

/-- Externally visible events of one `Downloader.Download` run. -/
inductive OEvent
  | netGetVideoInfo
  | netGetVideoStream
  | transferFile (kind : StreamType) (v : AudioOrVideo)
  | logMergeFailed
  | removeTempFile (kind : StreamType)
  | ledgerSave (e : HistoryEntry)
  deriving DecidableEq, Repr

/-- Errors returned by `Downloader.Download`. -/
inductive OError
  | getVideoInfoFailed (msg : String)
  | getVideoStreamFailed (msg : String)
  | noVideoStream
  | transferFailed (e : DlError)
  deriving DecidableEq, Repr

/-- Placeholder variant for `headD`; never selected: the selection sites
are guarded by non-emptiness of the variant lists. -/
def defaultVariant : AudioOrVideo := ⟨0, "", "", []⟩

/-- The part of `Downloader.Download` (downloader.go) that runs once
`GetVideoStream` has answered: empty-variant handling (the `"suee"`
status marker skip), sorting/selection, the two transfers, the merge, the
temp-file removals and the ledger upsert.  The sort of `slices.SortFunc`
is abstracted by `sorter` (applied to both variant lists).  Events are
relative to this stage; `Downloader.Download` prepends the lookup
events. -/
def downloadFromStream (sorter : List AudioOrVideo → List AudioOrVideo)
    (env : OrchestratorEnv) (history : List HistoryEntry)
    (option : DownloadOption) (saveHistory : Bool) (vs : VideoStream) :
    Except OError Unit × List OEvent × List HistoryEntry :=
  if vs.dash.video.length = 0 ∨ vs.dash.audio.length = 0 then
    if vs.result = "suee" then (.ok (), [], history)
    else (.error .noVideoStream, [], history)
  else
    let sortedVideo := sorter vs.dash.video
    let sortedAudio := sorter vs.dash.audio
    let outputFile := getFileName option none .video
    if env.dstFileExists then (.ok (), [], history)
    else
      let video := sortedVideo.headD defaultVariant
      match env.videoDownload with
      | .error e => (.error (.transferFailed e), [.transferFile .video video], history)
      | .ok _ =>
        let audio := sortedAudio.headD defaultVariant
        match env.audioDownload with
        | .error e => (.error (.transferFailed e),
            [.transferFile .video video, .transferFile .audio audio], history)
        | .ok _ =>
          match env.mergeOutcome with
          | .error _ => (.ok (),
              [.transferFile .video video, .transferFile .audio audio,
               .logMergeFailed], history)
          | .ok _ =>
            let entry : HistoryEntry :=
              { bvid := option.bvid, author := option.ownerName,
                title := option.title, keyword := option.searchKeyword,
                tags := String.intercalate ";" option.tags,
                fileName := outputFile }
            if saveHistory then
              (.ok (), [.transferFile .video video, .transferFile .audio audio,
                .removeTempFile .video, .removeTempFile .audio, .ledgerSave entry],
               History.Save history entry)
            else
              (.ok (), [.transferFile .video video, .transferFile .audio audio,
                .removeTempFile .video, .removeTempFile .audio], history)

/-- `Downloader.Download` (downloader.go): the history-ledger entry guard
(skipped under `force`), the `cid` resolution through `GetVideoInfo` when
absent, the `GetVideoStream` lookup, then `downloadFromStream`.  Returns
the result, the event trace, and the ledger state after the run. -/
def Downloader.Download (sorter : List AudioOrVideo → List AudioOrVideo)
    (env : OrchestratorEnv) (history : List HistoryEntry)
    (option : DownloadOption) (force saveHistory : Bool) :
    Except OError Unit × List OEvent × List HistoryEntry :=
  if force = false ∧ History.IsDownloaded history option.bvid = true then
    (.ok (), [], history)
  else
    let evs0 : List OEvent := if option.cid = 0 then [.netGetVideoInfo] else []
    let cidRes : Except OError Nat :=
      if option.cid = 0 then
        match env.videoInfoCid with
        | .error m => .error (.getVideoInfoFailed m)
        | .ok c => .ok c
      else .ok option.cid
    match cidRes with
    | .error e => (.error e, evs0, history)
    | .ok _ =>
      match env.videoStream with
      | .error m => (.error (.getVideoStreamFailed m),
          evs0 ++ [.netGetVideoStream], history)
      | .ok vs =>
        let r := downloadFromStream sorter env history option saveHistory vs
        (r.1, evs0 ++ [.netGetVideoStream] ++ r.2.1, r.2.2)

lemma download_reaches_stream (sorter : List AudioOrVideo → List AudioOrVideo)
    (env : OrchestratorEnv) (history : List HistoryEntry) (option : DownloadOption)
    (force saveHistory : Bool) (vs : VideoStream)
    (hguard : ¬(force = false ∧ History.IsDownloaded history option.bvid = true))
    (hcid : option.cid = 0 → ∃ c, env.videoInfoCid = Except.ok c)
    (hstream : env.videoStream = Except.ok vs) :
    ∃ evs0, (evs0 = [] ∨ evs0 = [OEvent.netGetVideoInfo]) ∧
      Downloader.Download sorter env history option force saveHistory =
        ((downloadFromStream sorter env history option saveHistory vs).1,
         evs0 ++ [OEvent.netGetVideoStream] ++
           (downloadFromStream sorter env history option saveHistory vs).2.1,
         (downloadFromStream sorter env history option saveHistory vs).2.2) := by
  unfold Downloader.Download
  rw [if_neg hguard]
  by_cases hc : option.cid = 0
  · obtain ⟨c, hcv⟩ := hcid hc
    refine ⟨[OEvent.netGetVideoInfo], Or.inr rfl, ?_⟩
    rw [if_pos hc, if_pos hc, hcv, hstream]
  · refine ⟨[], Or.inl rfl, ?_⟩
    rw [if_neg hc, if_neg hc, hstream]

/-- **C7.** A request whose content identifier is already in the ledger,
without `force`, returns success immediately with an empty event trace
(zero network calls, zero disk writes) and the ledger unchanged. -/
theorem download_history_short_circuit (sorter : List AudioOrVideo → List AudioOrVideo)
    (env : OrchestratorEnv) (history : List HistoryEntry) (option : DownloadOption)
    (saveHistory : Bool)
    (h : History.IsDownloaded history option.bvid = true) :
    Downloader.Download sorter env history option false saveHistory =
      (.ok (), [], history) := by
  unfold Downloader.Download
  rw [if_pos ⟨rfl, h⟩]

/-- A ledger row and a request for the same identifier, used by the
orchestrator witnesses. -/
def cEntry : HistoryEntry := ⟨"BV7", "o", "t", "", "", "o - t.mp4"⟩

/-- Environment whose stream lookup would fail: the short-circuit witness
never reaches it. -/
def cEnvIdle : OrchestratorEnv :=
  { videoInfoCid := .ok 1, videoStream := .error "unreached",
    dstFileExists := false, videoDownload := .ok (), audioDownload := .ok (),
    mergeOutcome := .ok () }

/-- Request for the already-recorded identifier `BV7`. -/
def cOptionBV7 : DownloadOption := ⟨"BV7", 3, "o", "t", "", [], ""⟩

/-- Witness for `download_history_short_circuit`. -/
theorem download_history_short_circuit_witness :
    Downloader.Download (fun l => l) cEnvIdle [cEntry] cOptionBV7 false true =
      (.ok (), [], [cEntry]) :=
  download_history_short_circuit (fun l => l) cEnvIdle [cEntry] cOptionBV7 true rfl

/-- **C9.** When the stream lookup succeeds but the video or audio variant
list is empty: if the response carries the recognized `"suee"` status
marker, the run returns success with no transfer performed, no temp file
removed, no ledger update and the ledger unchanged; otherwise the empty
variant list is a fatal error for the request. -/
theorem download_no_streams_policy (sorter : List AudioOrVideo → List AudioOrVideo)
    (env : OrchestratorEnv) (history : List HistoryEntry) (option : DownloadOption)
    (force saveHistory : Bool) (vs : VideoStream)
    (hguard : ¬(force = false ∧ History.IsDownloaded history option.bvid = true))
    (hcid : option.cid = 0 → ∃ c, env.videoInfoCid = Except.ok c)
    (hstream : env.videoStream = Except.ok vs)
    (hempty : vs.dash.video.length = 0 ∨ vs.dash.audio.length = 0) :
    (vs.result = "suee" →
      (Downloader.Download sorter env history option force saveHistory).1 = .ok () ∧
      (Downloader.Download sorter env history option force saveHistory).2.2 = history ∧
      (∀ k v, OEvent.transferFile k v ∉
        (Downloader.Download sorter env history option force saveHistory).2.1) ∧
      (∀ e, OEvent.ledgerSave e ∉
        (Downloader.Download sorter env history option force saveHistory).2.1) ∧
      (∀ k, OEvent.removeTempFile k ∉
        (Downloader.Download sorter env history option force saveHistory).2.1)) ∧
    (¬vs.result = "suee" →
      (Downloader.Download sorter env history option force saveHistory).1 =
        .error .noVideoStream) := by
  obtain ⟨evs0, hevs0, heq⟩ := download_reaches_stream sorter env history option
    force saveHistory vs hguard hcid hstream
  constructor
  · intro hsuee
    have hfs : downloadFromStream sorter env history option saveHistory vs =
        (.ok (), [], history) := by
      unfold downloadFromStream
      rw [if_pos hempty, if_pos hsuee]
    rw [heq, hfs]
    rcases hevs0 with rfl | rfl
    · exact ⟨rfl, rfl, by intro k v h; simp at h, by intro e h; simp at h,
        by intro k h; simp at h⟩
    · exact ⟨rfl, rfl, by intro k v h; simp at h, by intro e h; simp at h,
        by intro k h; simp at h⟩
  · intro hns
    have hfs : downloadFromStream sorter env history option saveHistory vs =
        (.error .noVideoStream, [], history) := by
      unfold downloadFromStream
      rw [if_pos hempty, if_neg hns]
    rw [heq, hfs]

/-- Stream-lookup response with no variants and the `"suee"` marker. -/
def cVsEmpty : VideoStream := { result := "suee", dash := { video := [], audio := [] } }

/-- Environment answering the stream lookup with `cVsEmpty`. -/
def cEnvEmpty : OrchestratorEnv :=
  { videoInfoCid := .ok 1, videoStream := .ok cVsEmpty, dstFileExists := false,
    videoDownload := .ok (), audioDownload := .ok (), mergeOutcome := .ok () }

/-- A request with the sub-stream identifier already resolved. -/
def cOptionE : DownloadOption := ⟨"BV9", 5, "o", "t", "", [], ""⟩

/-- Witness for `download_no_streams_policy`: empty variant lists with the
`"suee"` marker yield a benign skip. -/
theorem download_no_streams_policy_witness :
    (Downloader.Download (fun l => l) cEnvEmpty [] cOptionE true false).1 = .ok () ∧
    (Downloader.Download (fun l => l) cEnvEmpty [] cOptionE true false).2.2 = [] ∧
    (∀ k v, OEvent.transferFile k v ∉
      (Downloader.Download (fun l => l) cEnvEmpty [] cOptionE true false).2.1) ∧
    (∀ e, OEvent.ledgerSave e ∉
      (Downloader.Download (fun l => l) cEnvEmpty [] cOptionE true false).2.1) ∧
    (∀ k, OEvent.removeTempFile k ∉
      (Downloader.Download (fun l => l) cEnvEmpty [] cOptionE true false).2.1) :=
  (download_no_streams_policy (fun l => l) cEnvEmpty [] cOptionE true false cVsEmpty
    (by simp) (fun h => absurd h (by decide)) rfl (Or.inl rfl)).1 rfl

/-- **C8.** When both track transfers succeed but the external merge
fails, the run reports the failure (the log event) but returns success
(non-fatal to the batch), removes neither temporary track file, writes no
ledger record, and leaves the ledger unchanged. -/
theorem download_merge_failure_nonfatal (sorter : List AudioOrVideo → List AudioOrVideo)
    (env : OrchestratorEnv) (history : List HistoryEntry) (option : DownloadOption)
    (force saveHistory : Bool) (vs : VideoStream) (m : String)
    (hguard : ¬(force = false ∧ History.IsDownloaded history option.bvid = true))
    (hcid : option.cid = 0 → ∃ c, env.videoInfoCid = Except.ok c)
    (hstream : env.videoStream = Except.ok vs)
    (hvar : ¬(vs.dash.video.length = 0 ∨ vs.dash.audio.length = 0))
    (hdst : env.dstFileExists = false)
    (hvd : env.videoDownload = Except.ok ())
    (had : env.audioDownload = Except.ok ())
    (hm : env.mergeOutcome = Except.error m) :
    (Downloader.Download sorter env history option force saveHistory).1 = .ok () ∧
    (Downloader.Download sorter env history option force saveHistory).2.2 = history ∧
    (∀ k, OEvent.removeTempFile k ∉
      (Downloader.Download sorter env history option force saveHistory).2.1) ∧
    (∀ e, OEvent.ledgerSave e ∉
      (Downloader.Download sorter env history option force saveHistory).2.1) ∧
    OEvent.logMergeFailed ∈
      (Downloader.Download sorter env history option force saveHistory).2.1 := by
  obtain ⟨evs0, hevs0, heq⟩ := download_reaches_stream sorter env history option
    force saveHistory vs hguard hcid hstream
  have hfs : downloadFromStream sorter env history option saveHistory vs =
      (.ok (), [.transferFile .video ((sorter vs.dash.video).headD defaultVariant),
        .transferFile .audio ((sorter vs.dash.audio).headD defaultVariant),
        .logMergeFailed], history) := by
    unfold downloadFromStream
    simp only [if_neg hvar, if_neg (show ¬(env.dstFileExists = true) by simp [hdst]),
      hvd, had, hm]
  rw [heq, hfs]
  rcases hevs0 with rfl | rfl
  · exact ⟨rfl, rfl, by intro k h; simp at h, by intro e h; simp at h, by simp⟩
  · exact ⟨rfl, rfl, by intro k h; simp at h, by intro e h; simp at h, by simp⟩

/-- A single video variant used by the merge-failure witness. -/
def cVarV : AudioOrVideo := ⟨100, "video/mp4", "https://v", []⟩

/-- A single audio variant used by the merge-failure witness. -/
def cVarA : AudioOrVideo := ⟨64, "audio/mp4", "https://a", []⟩

/-- Stream-lookup response with one variant per kind. -/
def cVsFull : VideoStream := { result := "0", dash := { video := [cVarV], audio := [cVarA] } }

/-- Environment where both transfers succeed and the merge fails. -/
def cEnvMergeFail : OrchestratorEnv :=
  { videoInfoCid := .ok 1, videoStream := .ok cVsFull, dstFileExists := false,
    videoDownload := .ok (), audioDownload := .ok (), mergeOutcome := .error "exit 1" }

/-- Witness for `download_merge_failure_nonfatal`. -/
theorem download_merge_failure_nonfatal_witness :
    (Downloader.Download (fun l => l) cEnvMergeFail [] cOptionE true true).1 = .ok () ∧
    (Downloader.Download (fun l => l) cEnvMergeFail [] cOptionE true true).2.2 = [] ∧
    (∀ k, OEvent.removeTempFile k ∉
      (Downloader.Download (fun l => l) cEnvMergeFail [] cOptionE true true).2.1) ∧
    (∀ e, OEvent.ledgerSave e ∉
      (Downloader.Download (fun l => l) cEnvMergeFail [] cOptionE true true).2.1) ∧
    OEvent.logMergeFailed ∈
      (Downloader.Download (fun l => l) cEnvMergeFail [] cOptionE true true).2.1 :=
  download_merge_failure_nonfatal (fun l => l) cEnvMergeFail [] cOptionE true true
    cVsFull "exit 1" (by simp) (fun h => absurd h (by decide)) rfl (by decide)
    rfl rfl rfl rfl

/-- Contract of `slices.SortFunc(list, func(a, b) int { return b.Bandwidth - a.Bandwidth })`
(bilibili package, downloader.go): the result is a permutation of the
input ordered so that the bandwidth ranking key is nonincreasing.  Go's
`slices.SortFunc` is documented as **not** guaranteed to be stable, so the
relative order of equal-bandwidth variants in the result is not
specified. -/
def sortFuncContract (l r : List AudioOrVideo) : Prop :=
  l.Perm r ∧ r.Pairwise (fun a b => b.bandwidth ≤ a.bandwidth)

lemma head_max_of_contract (l r : List AudioOrVideo) (hl : l ≠ [])
    (hc : sortFuncContract l r) :
    r.headD defaultVariant ∈ l ∧
    ∀ x ∈ l, x.bandwidth ≤ (r.headD defaultVariant).bandwidth := by
  obtain ⟨hperm, hsort⟩ := hc
  cases r with
  | nil => exact absurd hperm.eq_nil hl
  | cons h t =>
    simp only [List.headD_cons]
    constructor
    · exact hperm.mem_iff.mpr (List.mem_cons_self h t)
    · intro x hx
      rcases List.mem_cons.mp (hperm.subset hx) with rfl | hxt
      · exact le_refl _
      · exact (List.pairwise_cons.mp hsort).1 x hxt

lemma downloadFromStream_video_event (sorter : List AudioOrVideo → List AudioOrVideo)
    (env : OrchestratorEnv) (history : List HistoryEntry) (option : DownloadOption)
    (saveHistory : Bool) (vs : VideoStream)
    (hvar : ¬(vs.dash.video.length = 0 ∨ vs.dash.audio.length = 0))
    (hdst : env.dstFileExists = false) :
    OEvent.transferFile .video ((sorter vs.dash.video).headD defaultVariant) ∈
      (downloadFromStream sorter env history option saveHistory vs).2.1 := by
  unfold downloadFromStream
  simp only [if_neg hvar, if_neg (show ¬(env.dstFileExists = true) by simp [hdst])]
  cases env.videoDownload with
  | error e => simp
  | ok u =>
    cases env.audioDownload with
    | error e => simp
    | ok u2 =>
      cases env.mergeOutcome with
      | error m => simp
      | ok u3 =>
        by_cases hs : saveHistory = true <;> simp [hs]

lemma downloadFromStream_audio_event (sorter : List AudioOrVideo → List AudioOrVideo)
    (env : OrchestratorEnv) (history : List HistoryEntry) (option : DownloadOption)
    (saveHistory : Bool) (vs : VideoStream)
    (hvar : ¬(vs.dash.video.length = 0 ∨ vs.dash.audio.length = 0))
    (hdst : env.dstFileExists = false)
    (hvd : env.videoDownload = Except.ok ()) :
    OEvent.transferFile .audio ((sorter vs.dash.audio).headD defaultVariant) ∈
      (downloadFromStream sorter env history option saveHistory vs).2.1 := by
  unfold downloadFromStream
  simp only [if_neg hvar, if_neg (show ¬(env.dstFileExists = true) by simp [hdst]), hvd]
  cases env.audioDownload with
  | error e => simp
  | ok u2 =>
    cases env.mergeOutcome with
    | error m => simp
    | ok u3 =>
      by_cases hs : saveHistory = true <;> simp [hs]

/-- **C5 (amended).** When both variant lists are nonempty and the run
reaches selection, `Downloader.Download` transfers, for each kind, a
variant of maximal bandwidth ranking key, for every sort outcome
satisfying the `slices.SortFunc` contract; the relative order of
equal-bandwidth variants is not specified (the sort is not guaranteed
stable), so ties need not resolve to the earliest variant of the input
list. -/
theorem download_selects_max_bandwidth (sorter : List AudioOrVideo → List AudioOrVideo)
    (env : OrchestratorEnv) (history : List HistoryEntry) (option : DownloadOption)
    (force saveHistory : Bool) (vs : VideoStream)
    (hguard : ¬(force = false ∧ History.IsDownloaded history option.bvid = true))
    (hcid : option.cid = 0 → ∃ c, env.videoInfoCid = Except.ok c)
    (hstream : env.videoStream = Except.ok vs)
    (hvar : ¬(vs.dash.video.length = 0 ∨ vs.dash.audio.length = 0))
    (hdst : env.dstFileExists = false)
    (hsv : sortFuncContract vs.dash.video (sorter vs.dash.video))
    (hsa : sortFuncContract vs.dash.audio (sorter vs.dash.audio)) :
    (∃ v, v ∈ vs.dash.video ∧ (∀ x ∈ vs.dash.video, x.bandwidth ≤ v.bandwidth) ∧
      OEvent.transferFile .video v ∈
        (Downloader.Download sorter env history option force saveHistory).2.1) ∧
    (env.videoDownload = Except.ok () →
      ∃ a, a ∈ vs.dash.audio ∧ (∀ x ∈ vs.dash.audio, x.bandwidth ≤ a.bandwidth) ∧
        OEvent.transferFile .audio a ∈
          (Downloader.Download sorter env history option force saveHistory).2.1) := by
  obtain ⟨evs0, hevs0, heq⟩ := download_reaches_stream sorter env history option
    force saveHistory vs hguard hcid hstream
  have hvne : vs.dash.video ≠ [] := by
    intro hnil
    exact hvar (Or.inl (by simp [hnil]))
  have hane : vs.dash.audio ≠ [] := by
    intro hnil
    exact hvar (Or.inr (by simp [hnil]))
  obtain ⟨hvmem, hvmax⟩ := head_max_of_contract _ _ hvne hsv
  obtain ⟨hamem, hamax⟩ := head_max_of_contract _ _ hane hsa
  constructor
  · refine ⟨_, hvmem, hvmax, ?_⟩
    rw [heq]
    exact List.mem_append.mpr (Or.inr
      (downloadFromStream_video_event sorter env history option saveHistory vs hvar hdst))
  · intro hvd
    refine ⟨_, hamem, hamax, ?_⟩
    rw [heq]
    exact List.mem_append.mpr (Or.inr
      (downloadFromStream_audio_event sorter env history option saveHistory vs hvar hdst hvd))

/-- First of two equal-bandwidth video variants. -/
def v0 : AudioOrVideo := ⟨100, "video/mp4", "https://v0", []⟩

/-- Second of two equal-bandwidth video variants. -/
def v1 : AudioOrVideo := ⟨100, "video/mp4", "https://v1", []⟩

/-- The single audio variant of the tie scenario. -/
def a0 : AudioOrVideo := ⟨64, "audio/mp4", "https://a0", []⟩

/-- Stream-lookup response with two equal-bandwidth video variants. -/
def cVsTie : VideoStream := { result := "0", dash := { video := [v0, v1], audio := [a0] } }

/-- Environment answering the stream lookup with `cVsTie`; everything
succeeds. -/
def cEnvTie : OrchestratorEnv :=
  { videoInfoCid := .ok 1, videoStream := .ok cVsTie, dstFileExists := false,
    videoDownload := .ok (), audioDownload := .ok (), mergeOutcome := .ok () }

/-- **C5 counterexample.** The claim says the sort is stable, so among
equally-ranked variants the earliest in the input list is selected.  Go's
`slices.SortFunc` promises only a permutation sorted by the comparator:
the swapped order of the two equal-bandwidth variants `v0, v1` also
satisfies that contract, and under that admissible sort outcome
`Downloader.Download` transfers `v1` — not `v0`, the earliest tied
variant. -/
theorem download_stable_tie_cex :
    sortFuncContract [v0, v1] (List.reverse [v0, v1]) ∧
    sortFuncContract [a0] (List.reverse [a0]) ∧
    v0.bandwidth = v1.bandwidth ∧ v0 ≠ v1 ∧
    OEvent.transferFile .video v1 ∈
      (Downloader.Download List.reverse cEnvTie [] cOptionE true false).2.1 ∧
    OEvent.transferFile .video v0 ∉
      (Downloader.Download List.reverse cEnvTie [] cOptionE true false).2.1 := by
  refine ⟨⟨by decide, by decide⟩, ⟨by decide, by decide⟩, rfl, by decide, by decide, by decide⟩

/-- Witness for `download_selects_max_bandwidth`: the identity sort
outcome (already nonincreasing) satisfies the contract, and a
maximal-bandwidth variant is transferred for each kind. -/
theorem download_selects_max_bandwidth_witness :
    (∃ v, v ∈ cVsTie.dash.video ∧ (∀ x ∈ cVsTie.dash.video, x.bandwidth ≤ v.bandwidth) ∧
      OEvent.transferFile .video v ∈
        (Downloader.Download (fun l => l) cEnvTie [] cOptionE true false).2.1) ∧
    (cEnvTie.videoDownload = Except.ok () →
      ∃ a, a ∈ cVsTie.dash.audio ∧ (∀ x ∈ cVsTie.dash.audio, x.bandwidth ≤ a.bandwidth) ∧
        OEvent.transferFile .audio a ∈
          (Downloader.Download (fun l => l) cEnvTie [] cOptionE true false).2.1) :=
  download_selects_max_bandwidth (fun l => l) cEnvTie [] cOptionE true false cVsTie
    (by simp) (fun h => absurd h (by decide)) rfl (by decide) rfl
    ⟨List.Perm.refl _, by decide⟩ ⟨List.Perm.refl _, by decide⟩
